import Mathlib

/-!
Shallow embedding of `iolib` (src/iolib/main.py) and proofs about it.

Raw bytes returned by `msvcrt.getch()` are modelled as `Char` (all codes
involved are single-byte).  Terminal output is modelled as the ordered list of
chunks passed to `sys.stdout.write` (for the hidden-input claims) or as a list
of cursor `Directive`s (for the redraw-protocol claims).
-/

namespace Iolib

/-- Raw byte constants, from src/iolib/main.py lines 28-35. -/
def UP : Char := 'H'

def DOWN : Char := 'P'

def RIGHT : Char := 'M'

def LEFT : Char := 'K'

def ENTER : Char := '\x0d'

def BACKSPACE : Char := '\x08'

def SPECIAL : Char := '\x00'

/-- The list `IGNORE = [RIGHT, LEFT, b"H", b"P"]` (main.py line 35 and the local copies). -/
def IGNORE : List Char := [RIGHT, LEFT, UP, DOWN]

/-! ## selection (main.py lines 43-128) -/

/-- Result of consuming one key in the `selection` loop: either the loop keeps
going with a new highlight index, or `Enter` confirmed an option. -/
inductive SelOut where
  | active (idx : Nat)
  | confirmed (choice : String)
  deriving Repr, DecidableEq

/-- One iteration of the `while True` key loop of `selection`
(main.py lines 76-128), acting on the highlight index `idx`.
Python's `idx = max(idx - 1, 0)` coincides with truncated `Nat` subtraction.
Note the source compares the raw byte directly against `DOWN`/`UP` with no
tracking of a preceding `SPECIAL` prefix byte. -/
def selectionStep (options : List String) (wrap : Bool) (idx : Nat) (key : Char) : SelOut :=
  if key = ENTER then
    .confirmed (options.getD idx "")
  else if key = DOWN then
    let current := idx
    let idx1 := min (idx + 1) (options.length - 1)
    if idx1 = current then
      if wrap ∧ options.length > 1 then .active 0 else .active idx1
    else .active idx1
  else if key = UP then
    let current := idx
    let idx1 := idx - 1
    if idx1 = current then
      if wrap ∧ options.length > 1 then .active (options.length - 1) else .active idx1
    else .active idx1
  else
    .active idx

/-- Run the `selection` key loop over a list of keys, returning the final
highlight index (the loop exits on `Enter`; the index is frozen there). -/
def selectionNavRun (options : List String) (wrap : Bool) : Nat → List Char → Nat
  | i, [] => i
  | i, k :: ks =>
    match selectionStep options wrap i k with
    | .active j => selectionNavRun options wrap j ks
    | .confirmed _ => i

/-- Entry of `selection` (main.py lines 57-74): the zero-options check at line 57
raises `TypeError` before the first `sys.stdout.write` at line 68; otherwise the
initial render chunks are produced.  The `ANSI_UP` repositioning chunk uses the
escape prefix byte `\x1b`. -/
def selectionStart (options : List String) (active passive : String) :
    Except String (List String) :=
  if options.isEmpty then
    .error "no option supplied"
  else
    let first := active ++ options.headD ""
    let rest := options.tail.map (fun o => "\x0a" ++ passive ++ o)
    .ok ([first] ++ rest ++ ["\x0d"] ++ [String.join (List.replicate (options.length - 1) "\x1b[A")])

/-- Output chunks actually written by the entry of `selection`: none on the
error path. -/
def selectionStartOutput (options : List String) (active passive : String) : List String :=
  match selectionStart options active passive with
  | .error _ => []
  | .ok chunks => chunks

/-! ## input_write (main.py lines 131-211) -/

/-- The loop-local state of `input_write` (and of `IODisplay._start`, which
duplicates the same handling): the typed characters (`written`), the cursor
index (`curr`) and the previously received raw byte (`last_key`, initially the
sentinel `""`, modelled as `none`). -/
structure IWState where
  written : List Char
  curr : Nat
  lastKey : Option Char
  deriving Repr, DecidableEq

/-- Initial state: `input_write` starts with `written = list(edit)` and `curr = len(edit)`
(main.py lines 142-144). -/
def inputWriteInit (edit : List Char) : IWState :=
  { written := edit, curr := edit.length, lastKey := none }

/-- One iteration of the key loop of `input_write` (main.py lines 157-211).
`last_key` is stored before dispatch (lines 159-160); on `Enter` the loop
returns, leaving the state otherwise untouched.  Guards make every decrement
apply to a positive value, so `Nat` subtraction is exact. -/
def inputWriteStep (s : IWState) (key : Char) : IWState :=
  let lastCopy := s.lastKey
  let s1 : IWState := { s with lastKey := some key }
  if key = ENTER then
    s1
  else if key = RIGHT ∧ lastCopy = some SPECIAL then
    if s1.curr < s1.written.length then { s1 with curr := s1.curr + 1 } else s1
  else if key = LEFT ∧ lastCopy = some SPECIAL then
    if s1.curr > 0 then { s1 with curr := s1.curr - 1 } else s1
  else if key = BACKSPACE then
    if s1.written ≠ [] then
      if s1.curr = 0 then s1
      else { s1 with curr := s1.curr - 1, written := s1.written.eraseIdx (s1.curr - 1) }
    else s1
  else if key = SPECIAL then
    s1
  else if key ∈ IGNORE ∧ lastCopy = some SPECIAL then
    s1
  else
    { s1 with written := s1.written.insertIdx s1.curr key, curr := s1.curr + 1 }

/-- Run the `input_write` loop until the first `Enter`, returning the typed
string, or `none` if the key list runs out first. -/
def inputWriteRun (s : IWState) : List Char → Option String
  | [] => none
  | k :: ks =>
    if k = ENTER then some (String.mk s.written)
    else inputWriteRun (inputWriteStep s k) ks

/-! ## input_hidden (main.py lines 214-259) -/

/-- Loop state of `input_hidden`: typed characters and the previous raw byte. -/
structure IHState where
  written : List Char
  lastKey : Option Char
  deriving Repr, DecidableEq

/-- One iteration of the key loop of `input_hidden` (main.py lines 238-259),
paired with the chunks it writes to stdout: only the `Enter` branch writes
(a single `"\n"`); every other branch writes nothing. -/
def inputHiddenStep (s : IHState) (key : Char) : IHState × List String :=
  let lastCopy := s.lastKey
  let s1 : IHState := { s with lastKey := some key }
  if key = ENTER then
    (s1, ["\x0a"])
  else if key = BACKSPACE then
    ({ s1 with written := s1.written.dropLast }, [])
  else if key = SPECIAL then
    (s1, [])
  else if key ∈ IGNORE ∧ lastCopy = some SPECIAL then
    (s1, [])
  else
    ({ s1 with written := s1.written ++ [key] }, [])

/-- The `input_hidden` loop: consumes keys until `Enter`, accumulating output
chunks; returns `(typed string, all chunks written)` or `none` if the keys run
out before `Enter`. -/
def inputHiddenLoop (s : IHState) (out : List String) : List Char → Option (String × List String)
  | [] => none
  | k :: ks =>
    let r := inputHiddenStep s k
    if k = ENTER then some (String.mk s.written, out ++ r.2)
    else inputHiddenLoop r.1 (out ++ r.2) ks

/-- Entry point `input_hidden(prompt)` driven by a finite key list: writes the prompt
(main.py line 225), then runs the loop from the empty buffer. -/
def inputHidden (prompt : String) (keys : List Char) : Option (String × List String) :=
  inputHiddenLoop { written := [], lastKey := none } [prompt] keys

/-! ## IODisplay (main.py lines 262-464) -/

/-- Instance state of `IODisplay` (`__init__`, main.py lines 267-281).
The worker `threading.Thread` handle is modelled as `Option Unit`. -/
structure IODisplayState where
  prompt : String
  lines : Nat
  dispatchOnEnter : Bool
  running : Bool
  written : List Char
  regestry : List String
  thread : Option Unit
  deriving Repr, DecidableEq

/-- A fresh display: `_written = []`, `_regestry = ["" for _ in range(lines)]`,
`_running = False`, `_thread = None`. -/
def ioDisplayInit (prompt : String) (lines : Nat) (dispatchOnEnter : Bool) : IODisplayState :=
  { prompt := prompt, lines := lines, dispatchOnEnter := dispatchOnEnter,
    running := false, written := [], regestry := List.replicate lines "",
    thread := none }

/-- A Python value handed to `IODisplay.push`: a string, a list of strings, or
some non-iterable object (carrying its `str()` rendering). -/
inductive PyVal where
  | str (s : String)
  | list (l : List String)
  | other (rendering : String)
  deriving Repr, DecidableEq

/-- Python check `isinstance(o, Iterable)`: strings ARE iterable. -/
def pyIterable : PyVal → Bool
  | .str _ => true
  | .list _ => true
  | .other _ => false

/-- Python check `isinstance(o, str)`. -/
def pyIsStr : PyVal → Bool
  | .str _ => true
  | _ => false

/-- Python conversion `str(o)`. -/
def pyStr : PyVal → String
  | .str s => s
  | .list l => String.join l
  | .other r => r

/-- Python expression `list(map(str, o))` for an iterable `o`: iterating a string yields its
characters one by one. -/
def pyIterElems : PyVal → List String
  | .str s => s.toList.map (fun c => String.mk [c])
  | .list l => l
  | .other _ => []

/-- Python length `len(o)` for an iterable `o`. -/
def pyLen (o : PyVal) : Nat := (pyIterElems o).length

/-- Method `IODisplay.push` (main.py lines 390-403), registry part: an iterable that
is not a `str` is extended element-wise and the same count is cut from the
front (`self._regestry[len(o):]`); anything else is appended as one line and
exactly one line is popped from the front. -/
def IODisplayState.push (d : IODisplayState) (o : PyVal) : IODisplayState :=
  if pyIterable o ∧ ¬ pyIsStr o then
    { d with regestry := (d.regestry ++ pyIterElems o).drop (pyLen o) }
  else
    { d with regestry := (d.regestry ++ [pyStr o]).drop 1 }

/-- Method `IODisplay.clear` (main.py lines 407-416), registry part:
`self._regestry = ["" for _ in range(self.lines)]`. -/
def IODisplayState.clear (d : IODisplayState) : IODisplayState :=
  { d with regestry := List.replicate d.lines "" }

/-- Method `IODisplay.get` (main.py lines 418-435): returns the typed string; with
`dispatch=True` it also empties `_written`. -/
def IODisplayState.get (d : IODisplayState) (dispatch : Bool) : String × IODisplayState :=
  (String.mk d.written, if dispatch then { d with written := [] } else d)

/-- One iteration of the key loop of `IODisplay._start` (main.py lines
310-375), acting on the loop-local `curr`/`last_key` and the instance
`_written`, reusing `IWState`.  On `Enter` the loop continues: `get` clears
`_written` when `dispatch_on_enter`, then `curr = 0` and `last_key = ""`
(lines 316-326).  `curr = max(0, curr - 1)` at line 352 coincides with `Nat`
subtraction under the `curr <= 0: continue` guard at line 342. -/
def ioDisplayStep (dispatchOnEnter : Bool) (s : IWState) (key : Char) : IWState :=
  let lastCopy := s.lastKey
  let s1 : IWState := { s with lastKey := some key }
  if key = ENTER then
    { written := if dispatchOnEnter then [] else s1.written, curr := 0, lastKey := none }
  else if key = RIGHT ∧ lastCopy = some SPECIAL then
    if s1.curr < s1.written.length then { s1 with curr := s1.curr + 1 } else s1
  else if key = LEFT ∧ lastCopy = some SPECIAL then
    if s1.curr > 0 then { s1 with curr := s1.curr - 1 } else s1
  else if key = BACKSPACE then
    if s1.written ≠ [] then
      if s1.curr = 0 then s1
      else { s1 with curr := s1.curr - 1, written := s1.written.eraseIdx (s1.curr - 1) }
    else s1
  else if key = SPECIAL then
    s1
  else if key ∈ IGNORE ∧ lastCopy = some SPECIAL then
    s1
  else
    { s1 with written := s1.written.insertIdx s1.curr key, curr := s1.curr + 1 }

/-- The loop-local state at the top of `IODisplay._start`: `curr = 0`,
`last_key = ""`, and `self._written` as constructed (`[]`). -/
def ioDisplayLoopInit : IWState :=
  { written := [], curr := 0, lastKey := none }

/-! ## Terminal directive model for `_clear_lines` / `_render_lines` -/

/-- The cursor-control vocabulary the display emits: `ANSI_UP`/`ANSI_DOWN`
moves, carriage return, newline, and a literal text write (which lands on the
current row).  A string containing `"\n"` is decomposed into `text`/`nl`
directives; registry entries themselves are treated as single-row content
(multi-line entries are undefined behaviour upstream, main.py line 380). -/
inductive Directive where
  | up (n : Nat)
  | down (n : Nat)
  | cr
  | nl
  | text (s : String)
  deriving Repr, DecidableEq

/-- Execute one directive on `(current row, rows written so far)`.  Rows grow
downward; a `text` write marks the row it is emitted on as touched. -/
def execD : Int × List Int → Directive → Int × List Int
  | (r, t), .up n => (r - n, t)
  | (r, t), .down n => (r + n, t)
  | (r, t), .cr => (r, t)
  | (r, t), .nl => (r + 1, t)
  | (r, t), .text _ => (r, t ++ [r])

/-- Execute a directive list left to right. -/
def execDs (st : Int × List Int) (ds : List Directive) : Int × List Int :=
  ds.foldl execD st

/-- The body of the `for element in self._regestry` loop of `_clear_lines`
(main.py lines 445-448): each iteration overwrites the element with spaces,
returns the carriage, and moves down one row. -/
def clearBody : List String → List Directive
  | [] => []
  | e :: es =>
    [Directive.text (String.mk (List.replicate e.length ' ')), .cr, .down 1] ++ clearBody es

/-- Method `IODisplay._clear_lines` (main.py lines 437-451): move up `self.lines`
rows, carriage return, then for each registry element overwrite it with
spaces, carriage return, move down one row. -/
def clearLinesDirs (d : IODisplayState) : List Directive :=
  [.up d.lines, .cr] ++ clearBody d.regestry

/-- The directives for `"\n".join(entries)` written as one chunk
(main.py lines 461-463). -/
def joinDirs : List String → List Directive
  | [] => []
  | [x] => [.text x]
  | x :: y :: xs => .text x :: .nl :: joinDirs (y :: xs)

/-- Method `IODisplay._render_lines` with `init=False` (main.py lines 453-464): move
up `self.lines` rows, carriage return, then write the registry entries and the
prompt line (`self.prompt + self.get(dispatch=False)`) joined by newlines. -/
def renderLinesDirs (d : IODisplayState) : List Directive :=
  [.up d.lines, .cr] ++ joinDirs (d.regestry ++ [d.prompt ++ String.mk d.written])

/-! ## start / stop (main.py lines 283-297, 377-388) -/

/-- A display together with whether its background worker loop is still
executing.  `join()` is modelled synchronously: it returns once the worker
has observed `_running = False` and exited. -/
structure SysState where
  disp : IODisplayState
  workerRunning : Bool
  deriving Repr, DecidableEq

/-- Method `IODisplay.start` (main.py lines 283-297), state part: threaded start
creates and launches a worker, unthreaded runs `_start` in the caller
(`_start` sets `_running = True`, line 303). -/
def startRun (sys : SysState) (threaded : Bool) : SysState :=
  if threaded then
    { disp := { sys.disp with running := true, thread := some () }, workerRunning := true }
  else
    { disp := { sys.disp with running := true, thread := none }, workerRunning := false }

/-- Method `IODisplay.stop` (main.py lines 377-388): set `_running = False`; if a
worker handle exists, `join()` it (the worker loop `while self._running`
observes the cleared flag and exits, so after the join the worker is no longer
running) and drop the handle; with `dispatch=True`, finally emit
`_clear_lines`. -/
def stopRun (sys : SysState) (dispatch : Bool) : SysState × List Directive :=
  let d1 : IODisplayState := { sys.disp with running := false }
  let next : SysState :=
    if d1.thread.isSome then
      { disp := { d1 with thread := none }, workerRunning := false }
    else
      { disp := d1, workerRunning := sys.workerRunning }
  let out := if dispatch then clearLinesDirs next.disp else []
  (next, out)

/-- A concrete display state used to evaluate the redraw protocol. -/
def sampleDisplay : IODisplayState :=
  { prompt := "> ", lines := 2, dispatchOnEnter := true, running := true,
    written := ['h'], regestry := ["a", "bb"], thread := none }

/-- The cursor invariant of the line-edit loops: `0 ≤ curr ≤ len(written)`
(the lower bound is inherent to `Nat`, which is exact here because every
decrement in the source is guarded by a positivity check). -/
def cursorInv (s : IWState) : Prop := s.curr ≤ s.written.length

/-- The `n` consecutive rows starting at row `q`. -/
def rowsFrom (q : Int) : Nat → List Int
  | 0 => []
  | n + 1 => q :: rowsFrom (q + 1) n

/-! ## Theorems -/

/-- C5: `selection` with zero options fails synchronously with the
invalid-argument error (`TypeError("no option supplied")`, the source's
rendering of `InvalidArgument`), and no output chunk is written on this error
path: the check at main.py line 57 precedes the first write at line 68. -/
theorem claim_C5_selection_zero_options_no_output (a p : String) :
    selectionStart [] a p = .error "no option supplied" ∧
    selectionStartOutput [] a p = [] :=
  ⟨rfl, rfl⟩

/-- C10: `IODisplay.push` of a string treats it as one atomic value even
though strings are iterable in Python (the `isinstance(o, str)` exclusion at
main.py line 398): it appends exactly one registry line equal to the string,
evicts exactly one line from the front, and never spreads the characters
across slots.  Stated for any state whose registry is non-empty. -/
theorem claim_C10_push_string_atomic (d : IODisplayState) (s : String)
    (h : d.regestry ≠ []) :
    pyIterable (.str s) = true ∧
    (d.push (.str s)).regestry = d.regestry.drop 1 ++ [s] ∧
    (d.push (.str s)).regestry.length = d.regestry.length := by
  have h1 : 1 ≤ d.regestry.length := by
    have := List.length_pos.mpr h
    omega
  refine ⟨rfl, ?_, ?_⟩
  · simp only [IODisplayState.push, pyIterable, pyIsStr, pyStr]
    rw [if_neg (by simp)]
    exact List.drop_append_of_le_length h1
  · simp only [IODisplayState.push, pyIterable, pyIsStr, pyStr]
    rw [if_neg (by simp)]
    simp [List.length_drop]

/-- Witness for C10 at a concrete display. -/
theorem claim_C10_push_string_atomic_witness :
    (ioDisplayInit "" 2 true).regestry ≠ [] ∧
    (pyIterable (.str "hi") = true ∧
      ((ioDisplayInit "" 2 true).push (.str "hi")).regestry =
        (ioDisplayInit "" 2 true).regestry.drop 1 ++ ["hi"] ∧
      ((ioDisplayInit "" 2 true).push (.str "hi")).regestry.length =
        (ioDisplayInit "" 2 true).regestry.length) :=
  ⟨by decide, claim_C10_push_string_atomic _ "hi" (by decide)⟩

/-- C2: the registry length is preserved by every operation, so it always
equals the capacity `lines`: a batch push of `k` lines appends them at the
back and evicts `k` from the front; a single non-sequence push evicts exactly
one; `clear` resets all slots to `""` keeping the length; and with capacity 2,
pushing `"x"`, `"y"`, `"z"` leaves exactly `["y", "z"]`. -/
theorem claim_C2_registry_capacity (d : IODisplayState) (l : List String) (r : String)
    (h : d.regestry.length = d.lines) :
    ((d.push (.list l)).regestry.length = d.lines ∧
      (l.length ≤ d.lines → (d.push (.list l)).regestry = d.regestry.drop l.length ++ l)) ∧
    ((d.push (.other r)).regestry.length = d.lines ∧
      (d.regestry ≠ [] → (d.push (.other r)).regestry = d.regestry.drop 1 ++ [r])) ∧
    (d.clear).regestry = List.replicate d.lines "" ∧
    (d.clear).regestry.length = d.lines ∧
    ((((ioDisplayInit "" 2 true).push (.str "x")).push (.str "y")).push
        (.str "z")).regestry = ["y", "z"] := by
  refine ⟨⟨?_, ?_⟩, ⟨?_, ?_⟩, rfl, by simp [IODisplayState.clear], by decide⟩
  · simp only [IODisplayState.push, pyIterable, pyIsStr, pyIterElems, pyLen]
    rw [if_pos (by simp)]
    simp [List.length_drop]
    omega
  · intro hk
    simp only [IODisplayState.push, pyIterable, pyIsStr, pyIterElems, pyLen]
    rw [if_pos (by simp)]
    exact List.drop_append_of_le_length (by omega)
  · simp only [IODisplayState.push, pyIterable, pyIsStr, pyStr]
    rw [if_neg (by simp)]
    simp [List.length_drop]
    omega
  · intro hne
    have h1 : 1 ≤ d.regestry.length := by
      have := List.length_pos.mpr hne
      omega
    simp only [IODisplayState.push, pyIterable, pyIsStr, pyStr]
    rw [if_neg (by simp)]
    exact List.drop_append_of_le_length h1

/-- Witness for C2 at a concrete display. -/
theorem claim_C2_registry_capacity_witness :
    (ioDisplayInit "" 2 true).regestry.length = (ioDisplayInit "" 2 true).lines ∧
    (((ioDisplayInit "" 2 true).push (.list ["a", "b"])).regestry.length =
        (ioDisplayInit "" 2 true).lines ∧
      (["a", "b"].length ≤ (ioDisplayInit "" 2 true).lines →
        ((ioDisplayInit "" 2 true).push (.list ["a", "b"])).regestry =
          (ioDisplayInit "" 2 true).regestry.drop ["a", "b"].length ++ ["a", "b"])) ∧
    (((ioDisplayInit "" 2 true).push (.other "o")).regestry.length =
        (ioDisplayInit "" 2 true).lines ∧
      ((ioDisplayInit "" 2 true).regestry ≠ [] →
        ((ioDisplayInit "" 2 true).push (.other "o")).regestry =
          (ioDisplayInit "" 2 true).regestry.drop 1 ++ ["o"])) ∧
    ((ioDisplayInit "" 2 true).clear).regestry = List.replicate (ioDisplayInit "" 2 true).lines "" ∧
    ((ioDisplayInit "" 2 true).clear).regestry.length = (ioDisplayInit "" 2 true).lines ∧
    ((((ioDisplayInit "" 2 true).push (.str "x")).push (.str "y")).push
        (.str "z")).regestry = ["y", "z"] :=
  ⟨by decide, claim_C2_registry_capacity (ioDisplayInit "" 2 true) ["a", "b"] "o" (by decide)⟩

/-- C3 counterexample: the claim's wrap-around example is off by one.  With
`wrap=True` over `["A", "B", "C"]` starting at index 0, the claim says a
fourth `Down` yields index 0; in the code the wrap transition fires at the
THIRD `Down` (pressed while the highlight is at the last index 2), so three
`Down`s yield 0 and the fourth yields 1. -/
theorem claim_C3_counterexample :
    selectionNavRun ["A", "B", "C"] true 0 [DOWN, DOWN, DOWN, DOWN] = 1 ∧
    (1 : Nat) ≠ 0 ∧
    selectionNavRun ["A", "B", "C"] true 0 [DOWN, DOWN, DOWN] = 0 := by
  decide

/-- C3 (amended): selection-menu navigation: `Down` below the last index
increments, `Down` at the last index is a no-op without wrap and wraps to 0
with wrap; `Up` is symmetric; `Enter` confirms the highlighted option.
Concretely, over `["A", "B", "C"]` from index 0: without wrap `Up` stays at 0
and a fourth `Down` stays at 2; with wrap two `Down`s reach index 2, the third
`Down` wraps to 0, and a fourth yields 1. -/
theorem claim_C3_selection_navigation :
    (∀ (options : List String) (wrap : Bool) (i : Nat), i + 1 < options.length →
      selectionStep options wrap i DOWN = .active (i + 1)) ∧
    (∀ (options : List String) (i : Nat), i + 1 = options.length →
      selectionStep options false i DOWN = .active i) ∧
    (∀ (options : List String) (i : Nat), i + 1 = options.length →
      selectionStep options true i DOWN = .active 0) ∧
    (∀ (options : List String) (wrap : Bool) (i : Nat), 0 < i →
      selectionStep options wrap i UP = .active (i - 1)) ∧
    (∀ (options : List String), selectionStep options false 0 UP = .active 0) ∧
    (∀ (options : List String),
      selectionStep options true 0 UP = .active (options.length - 1)) ∧
    (∀ (options : List String) (wrap : Bool) (i : Nat) (h : i < options.length),
      selectionStep options wrap i ENTER = .confirmed (options.get ⟨i, h⟩)) ∧
    selectionNavRun ["A", "B", "C"] false 0 [UP] = 0 ∧
    selectionNavRun ["A", "B", "C"] false 0 [DOWN, DOWN, DOWN, DOWN] = 2 ∧
    selectionNavRun ["A", "B", "C"] true 0 [DOWN, DOWN] = 2 ∧
    selectionNavRun ["A", "B", "C"] true 0 [DOWN, DOWN, DOWN] = 0 ∧
    selectionNavRun ["A", "B", "C"] true 0 [DOWN, DOWN, DOWN, DOWN] = 1 := by
  have hde : ¬ (DOWN = ENTER) := by decide
  have hue : ¬ (UP = ENTER) := by decide
  have hud : ¬ (UP = DOWN) := by decide
  refine ⟨?_, ?_, ?_, ?_, ?_, ?_, ?_, by decide, by decide, by decide, by decide, by decide⟩
  · intro options wrap i h
    unfold selectionStep
    rw [if_neg hde, if_pos rfl]
    dsimp only
    rw [if_neg (show ¬ (min (i + 1) (options.length - 1) = i) by omega)]
    congr 1
    omega
  · intro options i h
    unfold selectionStep
    rw [if_neg hde, if_pos rfl]
    dsimp only
    rw [if_pos (show min (i + 1) (options.length - 1) = i by omega),
      if_neg (by simp)]
    congr 1
    omega
  · intro options i h
    unfold selectionStep
    rw [if_neg hde, if_pos rfl]
    dsimp only
    rw [if_pos (show min (i + 1) (options.length - 1) = i by omega)]
    by_cases h1 : options.length > 1
    · rw [if_pos ⟨rfl, h1⟩]
    · rw [if_neg (by simp [h1])]
      congr 1
      omega
  · intro options wrap i h
    unfold selectionStep
    rw [if_neg hue, if_neg hud, if_pos rfl]
    dsimp only
    rw [if_neg (show ¬ (i - 1 = i) by omega)]
  · intro options
    unfold selectionStep
    rw [if_neg hue, if_neg hud, if_pos rfl]
    dsimp only
    rw [if_pos (show (0 : Nat) - 1 = 0 by omega), if_neg (by simp)]
  · intro options
    unfold selectionStep
    rw [if_neg hue, if_neg hud, if_pos rfl]
    dsimp only
    rw [if_pos (show (0 : Nat) - 1 = 0 by omega)]
    by_cases h1 : options.length > 1
    · rw [if_pos ⟨rfl, h1⟩]
    · rw [if_neg (by simp [h1])]
      congr 1
      omega
  · intro options wrap i h
    unfold selectionStep
    rw [if_pos rfl]
    congr 1
    exact List.getD_eq_getElem options "" h

/-- Witness for C3 at a concrete menu. -/
theorem claim_C3_selection_navigation_witness :
    (0 : Nat) + 1 < (["A", "B", "C"] : List String).length ∧
    selectionStep ["A", "B", "C"] false 0 DOWN = .active 1 :=
  ⟨by decide, (claim_C3_selection_navigation.1) ["A", "B", "C"] false 0 (by decide)⟩

/-- C6: the Backspace handler on an empty buffer, or with the cursor at index
0, is a no-op on both the content and the cursor, in `input_write` (main.py
lines 178-191) and in `IODisplay`'s live edit line (lines 340-354). -/
theorem claim_C6_backspace_noop (s : IWState) (b : Bool)
    (h : s.written = [] ∨ s.curr = 0) :
    (inputWriteStep s BACKSPACE).written = s.written ∧
    (inputWriteStep s BACKSPACE).curr = s.curr ∧
    (ioDisplayStep b s BACKSPACE).written = s.written ∧
    (ioDisplayStep b s BACKSPACE).curr = s.curr := by
  have h1 : ¬ (BACKSPACE = ENTER) := by decide
  have h2 : ¬ (BACKSPACE = RIGHT ∧ s.lastKey = some SPECIAL) := by
    rintro ⟨hc, -⟩
    exact absurd hc (by decide)
  have h3 : ¬ (BACKSPACE = LEFT ∧ s.lastKey = some SPECIAL) := by
    rintro ⟨hc, -⟩
    exact absurd hc (by decide)
  unfold inputWriteStep ioDisplayStep
  dsimp only
  rw [if_neg h1, if_neg h2, if_neg h3, if_pos rfl]
  rcases h with h | h
  · rw [if_neg (by simp [h])]
    exact ⟨rfl, rfl, rfl, rfl⟩
  · by_cases hw : s.written = []
    · rw [if_neg (by simp [hw])]
      exact ⟨rfl, rfl, rfl, rfl⟩
    · rw [if_pos (by simpa using hw), if_pos h]
      exact ⟨rfl, rfl, rfl, rfl⟩

/-- Witness for C6 on a concrete state with the cursor at 0. -/
theorem claim_C6_backspace_noop_witness :
    (({ written := ['a'], curr := 0, lastKey := none } : IWState).written = [] ∨
      ({ written := ['a'], curr := 0, lastKey := none } : IWState).curr = 0) ∧
    ((inputWriteStep { written := ['a'], curr := 0, lastKey := none } BACKSPACE).written =
        ['a'] ∧
      (inputWriteStep { written := ['a'], curr := 0, lastKey := none } BACKSPACE).curr = 0 ∧
      (ioDisplayStep true { written := ['a'], curr := 0, lastKey := none } BACKSPACE).written =
        ['a'] ∧
      (ioDisplayStep true { written := ['a'], curr := 0, lastKey := none } BACKSPACE).curr = 0) :=
  ⟨Or.inr rfl, claim_C6_backspace_noop { written := ['a'], curr := 0, lastKey := none } true
    (Or.inr rfl)⟩

/-- C7: `IODisplay.stop` is idempotent on the instance state: a second call
does not fault (the model is total; the `join` branch is skipped because the
handle was already dropped) and leaves the state of the first call unchanged,
with `running = false` and no thread handle retained; and when a worker handle
existed, the worker has exited (`join`, main.py line 384) before `stop`
returns. -/
theorem claim_C7_stop_idempotent (sys : SysState) (dispatch : Bool) :
    (stopRun (stopRun sys dispatch).1 dispatch).1 = (stopRun sys dispatch).1 ∧
    (stopRun sys dispatch).1.disp.running = false ∧
    (stopRun sys dispatch).1.disp.thread = none ∧
    (sys.disp.thread.isSome = true → (stopRun sys dispatch).1.workerRunning = false) := by
  unfold stopRun
  rcases hth : sys.disp.thread with _ | u
  · simp [hth]
  · simp [hth]

/-- Witness for C7 on a started (threaded) display. -/
theorem claim_C7_stop_idempotent_witness :
    (startRun { disp := ioDisplayInit "" 2 true, workerRunning := false }
        true).disp.thread.isSome = true ∧
    (stopRun (startRun { disp := ioDisplayInit "" 2 true, workerRunning := false } true)
        true).1.workerRunning = false :=
  ⟨by decide,
    (claim_C7_stop_idempotent
      (startRun { disp := ioDisplayInit "" 2 true, workerRunning := false } true)
      true).2.2.2 (by decide)⟩

/-- C1: in every step of the key loops of `input_write` and `IODisplay._start`
the cursor satisfies `0 ≤ curr ≤ len(written)`: it holds at the start of each
loop and is preserved by every key. -/
theorem claim_C1_cursor_invariant :
    (∀ edit : List Char, cursorInv (inputWriteInit edit)) ∧
    (∀ (s : IWState) (k : Char), cursorInv s → cursorInv (inputWriteStep s k)) ∧
    cursorInv ioDisplayLoopInit ∧
    (∀ (b : Bool) (s : IWState) (k : Char), cursorInv s → cursorInv (ioDisplayStep b s k)) := by
  have hlen : ∀ (l : List Char) (i : Nat), i < l.length → (l.eraseIdx i).length = l.length - 1 := by
    intro l i hi
    rw [List.length_eraseIdx]
    simp [hi]
  refine ⟨fun edit => le_refl _, ?_, Nat.zero_le _, ?_⟩
  · intro s k h
    unfold inputWriteStep
    dsimp only
    unfold cursorInv at h ⊢
    split_ifs <;> dsimp only <;>
      first
        | exact h
        | exact Nat.zero_le _
        | omega
        | (rw [List.length_insertIdx _ _ h]; omega)
        | (rw [hlen _ _ (by omega)]; omega)
  · intro b s k h
    unfold ioDisplayStep
    dsimp only
    unfold cursorInv at h ⊢
    split_ifs <;> dsimp only <;>
      first
        | exact h
        | exact Nat.zero_le _
        | omega
        | (rw [List.length_insertIdx _ _ h]; omega)
        | (rw [hlen _ _ (by omega)]; omega)

/-- Witness for C1: one preserved step on a concrete state. -/
theorem claim_C1_cursor_invariant_witness :
    cursorInv { written := ['a', 'b'], curr := 1, lastKey := none } ∧
    cursorInv (inputWriteStep { written := ['a', 'b'], curr := 1, lastKey := none } 'c') :=
  ⟨by unfold cursorInv; norm_num,
    claim_C1_cursor_invariant.2.1 { written := ['a', 'b'], curr := 1, lastKey := none } 'c'
      (by unfold cursorInv; norm_num)⟩

/-- C4 counterexample: in `selection` (main.py lines 84, 107) the raw bytes
`"P"`/`"H"` are matched directly with no tracking of a preceding `\x00`
prefix: consuming the single key `'P'` — a trace containing no prefix byte at
all — moves the highlight from 0 to 1, i.e. the bare navigation code IS
interpreted as a navigation key, contradicting the claim for `selection`. -/
theorem claim_C4_counterexample :
    selectionNavRun ["A", "B"] false 0 [DOWN] = 1 ∧ (1 : Nat) ≠ 0 := by
  decide

/-- C4 (amended): in `input_write`, `input_hidden` and `IODisplay`'s key loop,
a raw navigation-code byte (`M`, `K`, `H`, `P`) received without an
immediately preceding `\x00` prefix is treated as a normal printable
character; only prefix-then-code produces a navigation action (which never
modifies the text); and an orphan prefix byte followed by an unrelated byte is
still handled as a printable character.  `selection`, by contrast, matches the
bare codes directly (see the counterexample). -/
theorem inputWriteStep_insert (s : IWState) (k : Char) (hke : ¬ (k = ENTER))
    (hkb : ¬ (k = BACKSPACE)) (hks : ¬ (k = SPECIAL))
    (hr : ¬ (k = RIGHT ∧ s.lastKey = some SPECIAL))
    (hl : ¬ (k = LEFT ∧ s.lastKey = some SPECIAL))
    (hig : ¬ (k ∈ IGNORE ∧ s.lastKey = some SPECIAL)) :
    inputWriteStep s k =
      { written := s.written.insertIdx s.curr k, curr := s.curr + 1, lastKey := some k } := by
  unfold inputWriteStep
  dsimp only
  rw [if_neg hke, if_neg hr, if_neg hl, if_neg hkb, if_neg hks, if_neg hig]

theorem ioDisplayStep_insert (b : Bool) (s : IWState) (k : Char) (hke : ¬ (k = ENTER))
    (hkb : ¬ (k = BACKSPACE)) (hks : ¬ (k = SPECIAL))
    (hr : ¬ (k = RIGHT ∧ s.lastKey = some SPECIAL))
    (hl : ¬ (k = LEFT ∧ s.lastKey = some SPECIAL))
    (hig : ¬ (k ∈ IGNORE ∧ s.lastKey = some SPECIAL)) :
    ioDisplayStep b s k =
      { written := s.written.insertIdx s.curr k, curr := s.curr + 1, lastKey := some k } := by
  unfold ioDisplayStep
  dsimp only
  rw [if_neg hke, if_neg hr, if_neg hl, if_neg hkb, if_neg hks, if_neg hig]

theorem inputWriteStep_right_written (s : IWState) (hp : s.lastKey = some SPECIAL) :
    (inputWriteStep s RIGHT).written = s.written := by
  unfold inputWriteStep
  dsimp only
  rw [if_neg (show ¬ (RIGHT = ENTER) by decide), if_pos ⟨rfl, hp⟩]
  split_ifs <;> rfl

theorem inputWriteStep_left_written (s : IWState) (hp : s.lastKey = some SPECIAL) :
    (inputWriteStep s LEFT).written = s.written := by
  unfold inputWriteStep
  dsimp only
  rw [if_neg (show ¬ (LEFT = ENTER) by decide),
    if_neg (by rintro ⟨hc, -⟩; exact absurd hc (by decide)), if_pos ⟨rfl, hp⟩]
  split_ifs <;> rfl

theorem inputWriteStep_up_skipped (s : IWState) (hp : s.lastKey = some SPECIAL) :
    (inputWriteStep s UP).written = s.written ∧ (inputWriteStep s UP).curr = s.curr := by
  unfold inputWriteStep
  dsimp only
  rw [if_neg (show ¬ (UP = ENTER) by decide),
    if_neg (by rintro ⟨hc, -⟩; exact absurd hc (by decide)),
    if_neg (by rintro ⟨hc, -⟩; exact absurd hc (by decide)),
    if_neg (show ¬ (UP = BACKSPACE) by decide), if_neg (show ¬ (UP = SPECIAL) by decide),
    if_pos ⟨show UP ∈ IGNORE by decide, hp⟩]
  exact ⟨rfl, rfl⟩

theorem ioDisplayStep_right_written (b : Bool) (s : IWState) (hp : s.lastKey = some SPECIAL) :
    (ioDisplayStep b s RIGHT).written = s.written := by
  unfold ioDisplayStep
  dsimp only
  rw [if_neg (show ¬ (RIGHT = ENTER) by decide), if_pos ⟨rfl, hp⟩]
  split_ifs <;> rfl

theorem ioDisplayStep_left_written (b : Bool) (s : IWState) (hp : s.lastKey = some SPECIAL) :
    (ioDisplayStep b s LEFT).written = s.written := by
  unfold ioDisplayStep
  dsimp only
  rw [if_neg (show ¬ (LEFT = ENTER) by decide),
    if_neg (by rintro ⟨hc, -⟩; exact absurd hc (by decide)), if_pos ⟨rfl, hp⟩]
  split_ifs <;> rfl

theorem claim_C4_nav_needs_special_amended :
    (∀ (s : IWState) (b : Bool) (k : Char), k ∈ IGNORE → s.lastKey ≠ some SPECIAL →
      (inputWriteStep s k).written = s.written.insertIdx s.curr k ∧
      (inputWriteStep s k).curr = s.curr + 1 ∧
      (ioDisplayStep b s k).written = s.written.insertIdx s.curr k ∧
      (ioDisplayStep b s k).curr = s.curr + 1) ∧
    (∀ (s : IHState) (k : Char), k ∈ IGNORE → s.lastKey ≠ some SPECIAL →
      (inputHiddenStep s k).1.written = s.written ++ [k]) ∧
    (∀ (s : IWState) (b : Bool), s.lastKey = some SPECIAL →
      (inputWriteStep s RIGHT).written = s.written ∧
      (inputWriteStep s LEFT).written = s.written ∧
      (inputWriteStep s UP).written = s.written ∧
      (inputWriteStep s UP).curr = s.curr ∧
      (ioDisplayStep b s RIGHT).written = s.written ∧
      (ioDisplayStep b s LEFT).written = s.written) ∧
    (∀ (s : IHState) (k : Char), k ∈ IGNORE → s.lastKey = some SPECIAL →
      (inputHiddenStep s k).1.written = s.written) ∧
    (∀ (s : IWState) (k : Char), s.lastKey = some SPECIAL → k ∉ IGNORE → ¬ (k = ENTER) →
      ¬ (k = BACKSPACE) → ¬ (k = SPECIAL) →
      (inputWriteStep s k).written = s.written.insertIdx s.curr k ∧
      (inputWriteStep s k).curr = s.curr + 1) := by
  refine ⟨?_, ?_, ?_, ?_, ?_⟩
  · intro s b k hk hn
    have hke : ¬ (k = ENTER) := by rintro rfl; revert hk; decide
    have hkb : ¬ (k = BACKSPACE) := by rintro rfl; revert hk; decide
    have hks : ¬ (k = SPECIAL) := by rintro rfl; revert hk; decide
    have hr : ¬ (k = RIGHT ∧ s.lastKey = some SPECIAL) := by rintro ⟨-, hc⟩; exact hn hc
    have hl : ¬ (k = LEFT ∧ s.lastKey = some SPECIAL) := by rintro ⟨-, hc⟩; exact hn hc
    have hig : ¬ (k ∈ IGNORE ∧ s.lastKey = some SPECIAL) := by rintro ⟨-, hc⟩; exact hn hc
    rw [inputWriteStep_insert s k hke hkb hks hr hl hig,
      ioDisplayStep_insert b s k hke hkb hks hr hl hig]
    exact ⟨rfl, rfl, rfl, rfl⟩
  · intro s k hk hn
    have hke : ¬ (k = ENTER) := by rintro rfl; revert hk; decide
    have hkb : ¬ (k = BACKSPACE) := by rintro rfl; revert hk; decide
    have hks : ¬ (k = SPECIAL) := by rintro rfl; revert hk; decide
    unfold inputHiddenStep
    dsimp only
    rw [if_neg hke, if_neg hkb, if_neg hks, if_neg (by rintro ⟨-, hc⟩; exact hn hc)]
  · intro s b hp
    exact ⟨inputWriteStep_right_written s hp, inputWriteStep_left_written s hp,
      (inputWriteStep_up_skipped s hp).1, (inputWriteStep_up_skipped s hp).2,
      ioDisplayStep_right_written b s hp, ioDisplayStep_left_written b s hp⟩
  · intro s k hk hp
    have hke : ¬ (k = ENTER) := by rintro rfl; revert hk; decide
    have hkb : ¬ (k = BACKSPACE) := by rintro rfl; revert hk; decide
    have hks : ¬ (k = SPECIAL) := by rintro rfl; revert hk; decide
    unfold inputHiddenStep
    dsimp only
    rw [if_neg hke, if_neg hkb, if_neg hks, if_pos ⟨hk, hp⟩]
  · intro s k hp hki hke hkb hks
    have hr : ¬ (k = RIGHT ∧ s.lastKey = some SPECIAL) := by
      rintro ⟨hc, -⟩
      exact hki (by rw [hc]; decide)
    have hl : ¬ (k = LEFT ∧ s.lastKey = some SPECIAL) := by
      rintro ⟨hc, -⟩
      exact hki (by rw [hc]; decide)
    have hig : ¬ (k ∈ IGNORE ∧ s.lastKey = some SPECIAL) := by
      rintro ⟨hc, -⟩
      exact hki hc
    rw [inputWriteStep_insert s k hke hkb hks hr hl hig]
    exact ⟨rfl, rfl⟩

/-- Witness for C4 (amended): the bare byte `'P'` is inserted as a printable
character by `input_write`. -/
theorem claim_C4_nav_needs_special_amended_witness :
    DOWN ∈ IGNORE ∧
    ({ written := [], curr := 0, lastKey := none } : IWState).lastKey ≠ some SPECIAL ∧
    (inputWriteStep { written := [], curr := 0, lastKey := none } DOWN).written =
      List.insertIdx 0 DOWN [] ∧
    (inputWriteStep { written := [], curr := 0, lastKey := none } DOWN).curr = 0 + 1 :=
  ⟨by decide, by decide,
    (claim_C4_nav_needs_special_amended.1 { written := [], curr := 0, lastKey := none } true DOWN
      (by decide) (by decide)).1,
    (claim_C4_nav_needs_special_amended.1 { written := [], curr := 0, lastKey := none } true DOWN
      (by decide) (by decide)).2.1⟩

theorem inputHiddenStep_out_nil (s : IHState) (k : Char) (h : ¬ (k = ENTER)) :
    (inputHiddenStep s k).2 = [] := by
  unfold inputHiddenStep
  dsimp only
  rw [if_neg h]
  split_ifs <;> rfl

theorem inputHiddenLoop_out (ks : List Char) :
    ∀ (s : IHState) (out : List String) (r : String) (o : List String),
      inputHiddenLoop s out ks = some (r, o) → o = out ++ ["\x0a"] := by
  induction ks with
  | nil =>
    intro s out r o h
    simp [inputHiddenLoop] at h
  | cons k ks ih =>
    intro s out r o h
    unfold inputHiddenLoop at h
    by_cases hk : k = ENTER
    · rw [if_pos hk] at h
      have hout : (inputHiddenStep s k).2 = ["\x0a"] := by
        unfold inputHiddenStep
        rw [if_pos hk]
      rw [hout] at h
      have hp := Option.some.inj h
      exact (congrArg Prod.snd hp).symm
    · rw [if_neg hk] at h
      have := ih _ _ _ _ h
      rwa [inputHiddenStep_out_nil s k hk, List.append_nil] at this

/-- C8: `input_hidden` never echoes: any terminating run writes exactly the
prompt chunk followed by one newline chunk, whatever was typed; hence two runs
with the same prompt and different keys produce identical output while
returning the respective typed strings. -/
theorem claim_C8_input_hidden_no_echo (prompt : String) (ks1 ks2 : List Char)
    (r1 r2 : String) (o1 o2 : List String)
    (h1 : inputHidden prompt ks1 = some (r1, o1))
    (h2 : inputHidden prompt ks2 = some (r2, o2)) :
    o1 = [prompt, "\x0a"] ∧ o2 = o1 := by
  have e1 := inputHiddenLoop_out ks1 _ _ _ _ h1
  have e2 := inputHiddenLoop_out ks2 _ _ _ _ h2
  simp at e1 e2
  exact ⟨e1, by rw [e1, e2]⟩

/-- Witness for C8: two runs typing different things produce the same output
chunks. -/
theorem claim_C8_input_hidden_no_echo_witness :
    inputHidden "pw: " ['a', ENTER] = some ("a", ["pw: ", "\x0a"]) ∧
    inputHidden "pw: " ['x', 'y', BACKSPACE, ENTER] = some ("x", ["pw: ", "\x0a"]) ∧
    (["pw: ", "\x0a"] : List String) = ["pw: ", "\x0a"] ∧
    (["pw: ", "\x0a"] : List String) = ["pw: ", "\x0a"] :=
  ⟨by decide, by decide,
    (claim_C8_input_hidden_no_echo "pw: " ['a', ENTER] ['x', 'y', BACKSPACE, ENTER]
      "a" "x" ["pw: ", "\x0a"] ["pw: ", "\x0a"] (by decide) (by decide)).1,
    (claim_C8_input_hidden_no_echo "pw: " ['a', ENTER] ['x', 'y', BACKSPACE, ENTER]
      "a" "x" ["pw: ", "\x0a"] ["pw: ", "\x0a"] (by decide) (by decide)).2⟩

theorem execDs_append (st : Int × List Int) (ds1 ds2 : List Directive) :
    execDs st (ds1 ++ ds2) = execDs (execDs st ds1) ds2 := by
  unfold execDs
  rw [List.foldl_append]

theorem mem_rowsFrom (n : Nat) :
    ∀ (q x : Int), x ∈ rowsFrom q n ↔ (q ≤ x ∧ x < q + n) := by
  induction n with
  | zero =>
    intro q x
    simp [rowsFrom]
  | succ m ih =>
    intro q x
    simp [rowsFrom, ih (q + 1)]
    omega

theorem execDs_clearBody (l : List String) :
    ∀ (q : Int) (t : List Int),
      execDs (q, t) (clearBody l) = (q + l.length, t ++ rowsFrom q l.length) := by
  induction l with
  | nil =>
    intro q t
    simp [clearBody, execDs, rowsFrom]
  | cons e es ih =>
    intro q t
    have hstep : execDs (q, t) (clearBody (e :: es)) =
        execDs (q + 1, t ++ [q]) (clearBody es) := by
      show execDs (q, t)
        ([Directive.text (String.mk (List.replicate e.length ' ')), .cr, .down 1] ++
          clearBody es) = _
      rw [execDs_append]
      rfl
    rw [hstep, ih (q + 1) (t ++ [q])]
    refine Prod.ext ?_ ?_
    · show q + 1 + (es.length : Int) = q + ((es.length : Nat) + 1 : Nat)
      push_cast
      omega
    · show (t ++ [q]) ++ rowsFrom (q + 1) es.length = t ++ rowsFrom q (es.length + 1)
      rw [List.append_assoc]
      rfl

theorem execDs_joinDirs (l : List String) :
    ∀ (q : Int) (t : List Int), l ≠ [] →
      execDs (q, t) (joinDirs l) = (q + l.length - 1, t ++ rowsFrom q l.length) := by
  induction l with
  | nil =>
    intro q t h
    exact absurd rfl h
  | cons x xs ih =>
    intro q t _
    cases xs with
    | nil =>
      show execDs (q, t) [Directive.text x] = (q + (1 : Nat) - 1, t ++ rowsFrom q 1)
      show (q, t ++ [q]) = (q + (1 : Nat) - 1, t ++ rowsFrom q 1)
      refine Prod.ext ?_ ?_
      · show q = q + ((1 : Nat) : Int) - 1
        push_cast
        omega
      · rfl
    | cons y ys =>
      have hstep : execDs (q, t) (joinDirs (x :: y :: ys)) =
          execDs (q + 1, t ++ [q]) (joinDirs (y :: ys)) := by
        show execDs (q, t) (.text x :: .nl :: joinDirs (y :: ys)) = _
        rfl
      rw [hstep, ih (q + 1) (t ++ [q]) (by simp)]
      refine Prod.ext ?_ ?_
      · show q + 1 + ((y :: ys).length : Int) - 1 = q + ((x :: y :: ys).length : Int) - 1
        simp
        omega
      · show (t ++ [q]) ++ rowsFrom (q + 1) (y :: ys).length =
          t ++ rowsFrom q (x :: y :: ys).length
        rw [List.append_assoc]
        rfl

/-- C9: executing `_clear_lines` then `_render_lines` from any cursor row `r`
returns the cursor to row `r` (net row displacement zero), and the rows
receiving a text write are exactly the `lines` registry rows above `r`
together with the prompt row `r` — never any other row and never fewer,
assuming the registry-length invariant `len(_regestry) == lines`. -/
theorem claim_C9_redraw_protocol (d : IODisplayState) (r : Int)
    (h : d.regestry.length = d.lines) :
    (execDs (r, []) (clearLinesDirs d ++ renderLinesDirs d)).1 = r ∧
    (∀ x : Int, x ∈ (execDs (r, []) (clearLinesDirs d ++ renderLinesDirs d)).2 ↔
      (r - d.lines ≤ x ∧ x ≤ r)) := by
  have hclear : execDs (r, []) (clearLinesDirs d) =
      (r, rowsFrom (r - d.lines) d.lines) := by
    unfold clearLinesDirs
    rw [execDs_append]
    show execDs (r - d.lines, []) (clearBody d.regestry) = _
    rw [execDs_clearBody d.regestry (r - d.lines) [], h]
    refine Prod.ext ?_ ?_
    · show r - d.lines + (d.lines : Int) = r
      omega
    · rfl
  have hrender : execDs (r, rowsFrom (r - d.lines) d.lines) (renderLinesDirs d) =
      (r, rowsFrom (r - d.lines) d.lines ++ rowsFrom (r - d.lines) (d.lines + 1)) := by
    unfold renderLinesDirs
    rw [execDs_append]
    show execDs (r - d.lines, rowsFrom (r - d.lines) d.lines)
      (joinDirs (d.regestry ++ [d.prompt ++ String.mk d.written])) = _
    rw [execDs_joinDirs _ (r - d.lines) _ (by simp)]
    refine Prod.ext ?_ ?_
    · show r - d.lines + ((d.regestry ++ [d.prompt ++ String.mk d.written]).length : Int) - 1 = r
      simp [h]
      omega
    · show _ ++ rowsFrom (r - d.lines) (d.regestry ++ [d.prompt ++ String.mk d.written]).length =
        _ ++ rowsFrom (r - d.lines) (d.lines + 1)
      rw [List.length_append, h]
      rfl
  rw [execDs_append, hclear, hrender]
  refine ⟨rfl, ?_⟩
  intro x
  simp [mem_rowsFrom]
  omega

/-- Witness for C9 on a concrete display state. -/
theorem claim_C9_redraw_protocol_witness :
    sampleDisplay.regestry.length = sampleDisplay.lines ∧
    ((execDs ((5 : Int), []) (clearLinesDirs sampleDisplay ++ renderLinesDirs sampleDisplay)).1 =
        (5 : Int) ∧
      (∀ x : Int,
        x ∈ (execDs ((5 : Int), [])
            (clearLinesDirs sampleDisplay ++ renderLinesDirs sampleDisplay)).2 ↔
          ((5 : Int) - sampleDisplay.lines ≤ x ∧ x ≤ (5 : Int)))) :=
  ⟨rfl, claim_C9_redraw_protocol sampleDisplay 5 rfl⟩

end Iolib
